import Mathlib

/-!
Verification of the nanopng image-processing core against its design
specification.

The Rust sources under src/crate/src are embedded shallowly:
- pixel buffers are lists of natural numbers (one entry per byte, each byte
  value below 256 in well-formed inputs);
- the Rust `u32`/`usize`/`u16` arithmetic is modelled with unbounded naturals
  (the claims under consideration never depend on wraparound);
- Rust slice writes such as `result[d..d+4].copy_from_slice(&data[s..s+4])`
  are modelled byte by byte with `List.set`; reads past the end of a buffer
  default to 0 and writes past the end are dropped, which agrees with the
  source on every in-bounds execution;
- `f32`/`f64` arithmetic is modelled with exact rational arithmetic; `f64`
  `round` (round half away from zero, applied only to nonnegative values
  here) becomes the floor of x + 1/2;
- fallible Rust functions returning `Result<_, String>` become
  `Except String _`.
-/

set_option maxHeartbeats 1000000

namespace NanoPng

/-- Byte-level model of a Rust slice copy
`result[dst..dst+n].copy_from_slice(&data[src..src+n])`. -/
def copySlice (res : List Nat) (dst : Nat) (data : List Nat) (src : Nat) : Nat → List Nat
  | 0 => res
  | n + 1 => (copySlice res dst data src n).set (dst + n) (data.getD (src + n) 0)

/-- Rotate an RGBA image 90 degrees clockwise (`rotate_90_cw`, transform.rs). -/
def rotate_90_cw (data : List Nat) (width height : Nat) : List Nat × Nat × Nat :=
  let new_width := height
  let new_height := width
  let result := (List.range height).foldl (fun acc y =>
    (List.range width).foldl (fun acc2 x =>
      let src_idx := (y * width + x) * 4
      let new_x := height - 1 - y
      let new_y := x
      let dst_idx := (new_y * new_width + new_x) * 4
      copySlice acc2 dst_idx data src_idx 4) acc)
    (List.replicate (new_width * new_height * 4) 0)
  (result, new_width, new_height)

/-- Rotate an RGBA image 180 degrees (`rotate_180`, transform.rs). -/
def rotate_180 (data : List Nat) (width height : Nat) : List Nat :=
  let total_pixels := width * height
  (List.range total_pixels).foldl (fun acc i =>
    let src_idx := i * 4
    let dst_idx := (total_pixels - 1 - i) * 4
    copySlice acc dst_idx data src_idx 4)
    (List.replicate data.length 0)

/-- Rotate an RGBA image 270 degrees clockwise (`rotate_270_cw`, transform.rs). -/
def rotate_270_cw (data : List Nat) (width height : Nat) : List Nat × Nat × Nat :=
  let new_width := height
  let new_height := width
  let result := (List.range height).foldl (fun acc y =>
    (List.range width).foldl (fun acc2 x =>
      let src_idx := (y * width + x) * 4
      let new_x := y
      let new_y := width - 1 - x
      let dst_idx := (new_y * new_width + new_x) * 4
      copySlice acc2 dst_idx data src_idx 4) acc)
    (List.replicate (new_width * new_height * 4) 0)
  (result, new_width, new_height)

/-- Flip an RGBA image horizontally (`flip_horizontal`, transform.rs). -/
def flip_horizontal (data : List Nat) (width height : Nat) : List Nat :=
  (List.range height).foldl (fun acc y =>
    (List.range width).foldl (fun acc2 x =>
      let src_idx := (y * width + x) * 4
      let dst_idx := (y * width + (width - 1 - x)) * 4
      copySlice acc2 dst_idx data src_idx 4) acc)
    (List.replicate data.length 0)

/-- Flip an RGBA image vertically (`flip_vertical`, transform.rs). -/
def flip_vertical (data : List Nat) (width height : Nat) : List Nat :=
  (List.range height).foldl (fun acc y =>
    let src_row_start := y * width * 4
    let dst_row_start := (height - 1 - y) * width * 4
    let row_bytes := width * 4
    copySlice acc dst_row_start data src_row_start row_bytes)
    (List.replicate data.length 0)

/-- Apply rotation then flips (`apply_transforms`, transform.rs). -/
def apply_transforms (data : List Nat) (width height : Nat) (rotate : Nat)
    (flip_h flip_v : Bool) : List Nat × Nat × Nat :=
  let step1 : List Nat × Nat × Nat :=
    match rotate with
    | 90 => rotate_90_cw data width height
    | 180 => (rotate_180 data width height, width, height)
    | 270 => rotate_270_cw data width height
    | _ => (data, width, height)
  let step2 :=
    if flip_h then (flip_horizontal step1.1 step1.2.1 step1.2.2, step1.2.1, step1.2.2)
    else step1
  if flip_v then (flip_vertical step2.1 step2.2.1 step2.2.2, step2.2.1, step2.2.2)
  else step2

/-- Rational model of `f64::round` as used in resize.rs: all rounded values
there are nonnegative, where rounding half away from zero is the floor of
x + 1/2. The subsequent `as u32` cast becomes `Int.toNat`. -/
def rround (x : ℚ) : ℤ := Int.floor (x + 1 / 2)

/-- Fit-mode geometry (`calculate_fit_dimensions`, resize.rs). Returns
(final_width, final_height, optional crop region (x, y, w, h)). -/
def calculate_fit_dimensions (src_width src_height target_width target_height : Nat)
    (fit_mode : String) : Nat × Nat × Option (Nat × Nat × Nat × Nat) :=
  match fit_mode with
  | "fill" => (target_width, target_height, none)
  | "cover" =>
    let scale_x : ℚ := (target_width : ℚ) / (src_width : ℚ)
    let scale_y : ℚ := (target_height : ℚ) / (src_height : ℚ)
    let scale := max scale_x scale_y
    let scaled_w := (rround ((src_width : ℚ) * scale)).toNat
    let scaled_h := (rround ((src_height : ℚ) * scale)).toNat
    let crop_x := (scaled_w - target_width) / 2
    let crop_y := (scaled_h - target_height) / 2
    (max scaled_w 1, max scaled_h 1, some (crop_x, crop_y, target_width, target_height))
  | "outside" =>
    let scale_x : ℚ := (target_width : ℚ) / (src_width : ℚ)
    let scale_y : ℚ := (target_height : ℚ) / (src_height : ℚ)
    let scale := max scale_x scale_y
    let new_w := (rround ((src_width : ℚ) * scale)).toNat
    let new_h := (rround ((src_height : ℚ) * scale)).toNat
    (max new_w 1, max new_h 1, none)
  | _ =>
    let scale_x : ℚ := (target_width : ℚ) / (src_width : ℚ)
    let scale_y : ℚ := (target_height : ℚ) / (src_height : ℚ)
    let scale := min scale_x scale_y
    let new_w := (rround ((src_width : ℚ) * scale)).toNat
    let new_h := (rround ((src_height : ℚ) * scale)).toNat
    (max new_w 1, max new_h 1, none)

/-- Crop an RGBA image to a region (`crop_image`, resize.rs). The Rust body
appends `data[start..start+cw*4]` for each cropped row. -/
def crop_image (data : List Nat) (width _height x y crop_width crop_height : Nat) :
    List Nat :=
  (List.range crop_height).foldl (fun res i =>
    let row := y + i
    let start := (row * width + x) * 4
    res ++ ((data.drop start).take (crop_width * 4))) []

/-- Dimension-guarded resample (`resize_image`, resize.rs). The guard is
implemented in this repository; the resampling itself is delegated to the
external fast_image_resize collaborator, which the spec places out of scope,
so a successful resample is abstracted as a destination-sized buffer. -/
def resize_image (_data : List Nat) (src_width src_height dst_width dst_height : Nat)
    (_filter : String) : Except String (List Nat) :=
  if src_width = 0 ∨ src_height = 0 ∨ dst_width = 0 ∨ dst_height = 0 then
    .error "Invalid dimensions"
  else
    .ok (List.replicate (dst_width * dst_height * 4) 0)

/-- Unsharp-mask sharpening (`sharpen`, filters.rs). `f32` arithmetic is
modelled with exact rationals; the final `max(0.0).min(255.0) as u8` becomes
clamping followed by truncation toward zero. -/
def sharpen (data : List Nat) (width height : Nat) (amount : ℚ) : List Nat :=
  if amount ≤ 0 ∨ width < 3 ∨ height < 3 then data
  else
    let w := width
    let h := height
    let kernel_strength := min amount 1
    (List.range' 1 (h - 1 - 1)).foldl (fun res y =>
      (List.range' 1 (w - 1 - 1)).foldl (fun res2 x =>
        let idx := (y * w + x) * 4
        (List.range 3).foldl (fun res3 c =>
          let center : ℚ := (data.getD (idx + c) 0 : Nat)
          let top : ℚ := (data.getD (((y - 1) * w + x) * 4 + c) 0 : Nat)
          let bottom : ℚ := (data.getD (((y + 1) * w + x) * 4 + c) 0 : Nat)
          let left : ℚ := (data.getD ((y * w + x - 1) * 4 + c) 0 : Nat)
          let right : ℚ := (data.getD ((y * w + x + 1) * 4 + c) 0 : Nat)
          let sharpened := 5 * center - top - bottom - left - right
          let blended := center + (sharpened - center) * kernel_strength
          res3.set (idx + c) (Int.toNat (Int.floor (min (max blended 0) 255)))) res2) res)
      data

/-- Corner-sampled background estimate (filters.rs, detect_content_bounds:
average of the four corner pixels, channel sums accumulated as u32, divided
by 4 and narrowed back to u8). -/
def bg_estimate (data : List Nat) (w h : Nat) : Nat × Nat × Nat :=
  let corners : List (Nat × Nat) := [(0, 0), (w - 1, 0), (0, h - 1), (w - 1, h - 1)]
  let sums := corners.foldl (fun (s : Nat × Nat × Nat) p =>
    let idx := (p.2 * w + p.1) * 4
    (s.1 + data.getD idx 0, s.2.1 + data.getD (idx + 1) 0, s.2.2 + data.getD (idx + 2) 0))
    (0, 0, 0)
  (sums.1 / 4 % 256, sums.2.1 / 4 % 256, sums.2.2 / 4 % 256)

/-- The is_background closure of detect_content_bounds (filters.rs): every
channel differs from the estimate by at most the threshold. -/
def is_background_px (data : List Nat) (threshold bg_r bg_g bg_b idx : Nat) : Bool :=
  let dr := ((data.getD idx 0 : ℤ) - (bg_r : ℤ)).natAbs
  let dg := ((data.getD (idx + 1) 0 : ℤ) - (bg_g : ℤ)).natAbs
  let db := ((data.getD (idx + 2) 0 : ℤ) - (bg_b : ℤ)).natAbs
  decide (dr ≤ threshold) && decide (dg ≤ threshold) && decide (db ≤ threshold)

/-- The bounds-finding scan of detect_content_bounds (filters.rs): fold over
all pixels keeping (min_x, max_x, min_y, max_y) of non-background pixels,
started at (w, 0, h, 0). -/
def detect_scan (data : List Nat) (w h threshold bg_r bg_g bg_b : Nat) :
    Nat × Nat × Nat × Nat :=
  (List.range h).foldl (fun (st : Nat × Nat × Nat × Nat) y =>
    (List.range w).foldl (fun (st2 : Nat × Nat × Nat × Nat) x =>
      let idx := (y * w + x) * 4
      if is_background_px data threshold bg_r bg_g bg_b idx then st2
      else
        let mn_x := if x < st2.1 then x else st2.1
        let mx_x := if x > st2.2.1 then x else st2.2.1
        let mn_y := if y < st2.2.2.1 then y else st2.2.2.1
        let mx_y := if y > st2.2.2.2 then y else st2.2.2.2
        (mn_x, mx_x, mn_y, mx_y)) st)
    (w, 0, h, 0)

/-- Background-content bounding box (`detect_content_bounds`, filters.rs). -/
def detect_content_bounds (data : List Nat) (width height : Nat) (threshold : Nat) :
    Option (Nat × Nat × Nat × Nat) :=
  if width = 0 ∨ height = 0 then none
  else
    let bg := bg_estimate data width height
    let scan := detect_scan data width height threshold bg.1 bg.2.1 bg.2.2
    if scan.1 > scan.2.1 ∨ scan.2.2.1 > scan.2.2.2 then none
    else
      let crop_x := scan.1
      let crop_y := scan.2.2.1
      let crop_w := scan.2.1 - scan.1 + 1
      let crop_h := scan.2.2.2 - scan.2.2.1 + 1
      if crop_x = 0 ∧ crop_y = 0 ∧ crop_w = width ∧ crop_h = height then none
      else some (crop_x, crop_y, crop_w, crop_h)

/-- Auto-trim of background borders (`auto_trim`, filters.rs). -/
def auto_trim (data : List Nat) (width height : Nat) (threshold : Nat) :
    List Nat × Nat × Nat :=
  match detect_content_bounds data width height threshold with
  | some (x, y, w, h) => (crop_image data width height x y w h, w, h)
  | none => (data, width, height)

/-- One output pixel of a box-blur pass: averages the window of `radius`
neighbours of `x` along a line of length `len`, reading the four channels of
pixel `i` of `src` at byte `index i`, and writes the averages at byte
position `idx` of `buf` (filters.rs, blur, loop bodies of the two passes). -/
def blurLine (src buf : List Nat) (index : Nat → Nat) (len x idx radius : Nat) :
    List Nat :=
  let sums := (List.range (2 * radius + 1)).foldl
    (fun (s : Nat × Nat × Nat × Nat × Nat) d =>
      let n : ℤ := (x : ℤ) + (d : ℤ) - (radius : ℤ)
      if 0 ≤ n ∧ n < (len : ℤ) then
        let i := index n.toNat
        (s.1 + src.getD i 0, s.2.1 + src.getD (i + 1) 0, s.2.2.1 + src.getD (i + 2) 0,
         s.2.2.2.1 + src.getD (i + 3) 0, s.2.2.2.2 + 1)
      else s)
    (0, 0, 0, 0, 0)
  let count := sums.2.2.2.2
  ((((buf.set idx (sums.1 / count % 256)).set (idx + 1) (sums.2.1 / count % 256)).set
      (idx + 2) (sums.2.2.1 / count % 256)).set
    (idx + 3) (sums.2.2.2.1 / count % 256))

/-- Body of `blur` after the early-return guard and radius clamp
(filters.rs): a horizontal average pass into `temp`, then a vertical average
pass over `temp` into `result`; both intermediate buffers start as copies of
the input, matching `data.to_vec()`. -/
def blurBody (data : List Nat) (w h radius : Nat) : List Nat :=
  let temp := (List.range h).foldl (fun tmp y =>
    (List.range w).foldl (fun tmp2 x =>
      blurLine data tmp2 (fun nx => (y * w + nx) * 4) w x ((y * w + x) * 4) radius) tmp)
    data
  (List.range h).foldl (fun res y =>
    (List.range w).foldl (fun res2 x =>
      blurLine temp res2 (fun ny => (ny * w + x) * 4) h y ((y * w + x) * 4) radius) res)
    data

/-- Two-pass box blur (`blur`, filters.rs). The radius is clamped to at most
50 after the early-return check. -/
def blur (data : List Nat) (width height : Nat) (radius : Nat) : List Nat :=
  if radius = 0 ∨ width < 3 ∨ height < 3 then data
  else blurBody data width height (min radius 50)

/-- Little-endian u16 at a byte offset (`u16::from_le_bytes`). -/
def leU16 (data : List Nat) (off : Nat) : Nat :=
  data.getD off 0 + 256 * data.getD (off + 1) 0

/-- Little-endian u32 at a byte offset (`u32::from_le_bytes`). -/
def leU32 (data : List Nat) (off : Nat) : Nat :=
  data.getD off 0 + 256 * data.getD (off + 1) 0 + 65536 * data.getD (off + 2) 0 +
    16777216 * data.getD (off + 3) 0

/-- Little-endian i32 at a byte offset (`i32::from_le_bytes`): the two's
complement reading of the u32 value. -/
def leI32 (data : List Nat) (off : Nat) : ℤ :=
  let v := leU32 data off
  if v < 2147483648 then (v : ℤ) else (v : ℤ) - 4294967296

/-- BMP magic check (`is_bmp`, codecs/bmp.rs): at least two bytes and the
first two are "BM". -/
def is_bmp (data : List Nat) : Bool :=
  decide (2 ≤ data.length) && (data.take 2 == [66, 77])

/-- One pixel of the BMP decode loop (codecs/bmp.rs, body of the inner `for x`
loop): bounds check against the input length, then a BGR/BGRA to RGBA write
into `rgba` at the destination index. -/
def bmpDecodePixel (data : List Nat) (bits_per_pixel row_start width y : Nat)
    (rgba : List Nat) (x : Nat) : Except String (List Nat) :=
  let bytes_per_pixel := bits_per_pixel / 8
  let src_idx := row_start + x * bytes_per_pixel
  let dst_idx := (y * width + x) * 4
  if src_idx + bytes_per_pixel > data.length then .error "BMP data truncated"
  else
    match bits_per_pixel with
    | 24 =>
      .ok (((((rgba.set dst_idx (data.getD (src_idx + 2) 0)).set
        (dst_idx + 1) (data.getD (src_idx + 1) 0)).set
        (dst_idx + 2) (data.getD src_idx 0)).set
        (dst_idx + 3) 255))
    | 32 =>
      .ok (((((rgba.set dst_idx (data.getD (src_idx + 2) 0)).set
        (dst_idx + 1) (data.getD (src_idx + 1) 0)).set
        (dst_idx + 2) (data.getD src_idx 0)).set
        (dst_idx + 3) (data.getD (src_idx + 3) 0)))
    | _ => .error ("Unsupported BMP bit depth: " ++ toString bits_per_pixel)

/-- Decode a BMP image to RGBA pixels (`decode_bmp`, codecs/bmp.rs).
Returns (pixels, width, height). -/
def decode_bmp (data : List Nat) : Except String (List Nat × Nat × Nat) :=
  if data.length < 54 then .error "BMP file too small"
  else if ¬ is_bmp data then .error "Not a valid BMP file"
  else
    let data_offset := leU32 data 10
    let width_raw := leI32 data 18
    let height_raw := leI32 data 22
    let bits_per_pixel := leU16 data 28
    let compression := leU32 data 30
    if compression ≠ 0 ∧ compression ≠ 3 then
      .error ("Unsupported BMP compression: " ++ toString compression)
    else
      let width := width_raw.natAbs
      let height_abs := height_raw.natAbs
      let is_top_down := height_raw < 0
      let bytes_per_pixel := bits_per_pixel / 8
      let row_size := (width * bytes_per_pixel + 3) / 4 * 4
      let rows := (List.range height_abs).foldlM (fun rgba y =>
        let src_y := if is_top_down then y else height_abs - 1 - y
        let row_start := data_offset + src_y * row_size
        (List.range width).foldlM
          (fun rg x => bmpDecodePixel data bits_per_pixel row_start width y rg x) rgba)
        (List.replicate (width * height_abs * 4) 0)
      match rows with
      | .error e => .error e
      | .ok rgba => .ok (rgba, width, height_abs)

/-- Test-input constructor for C7: the uniform solid-color image of the
claim, w*h pixels all equal to (r, g, b, a). -/
def uniformImage (w h r g b a : Nat) : List Nat :=
  (List.replicate (w * h) [r, g, b, a]).flatten

/-- Concrete 1-by-1, 24-bit BMP test vector: 54-byte header (magic "BM",
pixel-data offset 54, width 1, height 1, 24 bpp, compression 0) followed by
one padded row whose single pixel is stored as BGR bytes 0, 0, 255. -/
def bmp1x1 : List Nat :=
  [66, 77, 0, 0, 0, 0, 0, 0, 0, 0,
   54, 0, 0, 0, 0, 0, 0, 0,
   1, 0, 0, 0, 1, 0, 0, 0,
   0, 0, 24, 0, 0, 0, 0, 0,
   0, 0, 0, 0, 0, 0, 0, 0, 0, 0, 0, 0, 0, 0, 0, 0, 0, 0, 0, 0,
   0, 0, 255, 0]

/-! Generic lemmas about the byte-copy loops. -/

theorem copySlice_length (res : List Nat) (dst : Nat) (data : List Nat) (src : Nat) :
    ∀ n, (copySlice res dst data src n).length = res.length := by
  intro n
  induction n with
  | zero => rfl
  | succ n ih => simp [copySlice, ih]

theorem getD_copySlice_out (res : List Nat) (dst : Nat) (data : List Nat) (src : Nat)
    (n j : Nat) (h : j < dst ∨ dst + n ≤ j) :
    (copySlice res dst data src n).getD j 0 = res.getD j 0 := by
  induction n with
  | zero => rfl
  | succ n ih =>
    have hne : dst + n ≠ j := by omega
    simp only [copySlice]
    rw [List.getD_eq_getElem?_getD, List.getElem?_set_ne hne,
      ← List.getD_eq_getElem?_getD]
    exact ih (by omega)

theorem getD_copySlice_in (res : List Nat) (dst : Nat) (data : List Nat) (src : Nat)
    (n j : Nat) (h1 : dst ≤ j) (h2 : j < dst + n) (h3 : j < res.length) :
    (copySlice res dst data src n).getD j 0 = data.getD (src + (j - dst)) 0 := by
  induction n with
  | zero => omega
  | succ n ih =>
    by_cases hj : j = dst + n
    · have hlen : j < (copySlice res dst data src n).length := by
        rw [copySlice_length]; exact h3
      subst hj
      have hidx : dst + n - dst = n := by omega
      rw [hidx]
      simp [copySlice, List.getD_eq_getElem?_getD, List.getElem?_set_self hlen]
    · have hne : dst + n ≠ j := fun hc => hj hc.symm
      simp only [copySlice]
      rw [List.getD_eq_getElem?_getD, List.getElem?_set_ne hne,
        ← List.getD_eq_getElem?_getD]
      exact ih (by omega)

theorem foldl_length_eq {α : Type} (f : List Nat → α → List Nat)
    (hf : ∀ acc a, (f acc a).length = acc.length) :
    ∀ (l : List α) (init : List Nat), (l.foldl f init).length = init.length := by
  intro l
  induction l with
  | nil => intro init; rfl
  | cons a l ih => intro init; rw [List.foldl_cons, ih, hf]

theorem foldl_nested_range {α : Type} (h w : Nat) (g : Nat → Nat → α → α) (init : α) :
    (List.range h).foldl (fun a y => (List.range w).foldl (fun a2 x => g y x a2) a) init
      = (List.range (h * w)).foldl (fun a i => g (i / w) (i % w) a) init := by
  rcases Nat.eq_zero_or_pos w with hw | hw
  · subst hw
    simp only [Nat.mul_zero, List.range_zero, List.foldl_nil]
    induction h with
    | zero => rfl
    | succ h ih => rw [List.range_succ, List.foldl_append, ih]; rfl
  · induction h with
    | zero => simp
    | succ h ih =>
      rw [List.range_succ, List.foldl_append, ih, Nat.succ_mul, List.range_add,
        List.foldl_append, List.foldl_map]
      simp only [List.foldl_cons, List.foldl_nil]
      apply List.foldl_ext
      intro a b hb
      have hbw : b < w := List.mem_range.mp hb
      have hdiv : (h * w + b) / w = h := by
        rw [Nat.mul_comm h w, Nat.mul_add_div hw, Nat.div_eq_of_lt hbw, Nat.add_zero]
      have hmod : (h * w + b) % w = b := by
        rw [Nat.mul_comm h w, Nat.mul_add_mod, Nat.mod_eq_of_lt hbw]
      rw [hdiv, hmod]

theorem foldl_copySlice_untouched (l : List Nat) (dstf srcf : Nat → Nat)
    (data acc : List Nat) (j : Nat)
    (h : ∀ i ∈ l, j < dstf i ∨ dstf i + 4 ≤ j) :
    (l.foldl (fun a i => copySlice a (dstf i) data (srcf i) 4) acc).getD j 0
      = acc.getD j 0 := by
  induction l generalizing acc with
  | nil => rfl
  | cons i l ih =>
    rw [List.foldl_cons, ih _ (fun i2 h2 => h i2 (List.mem_cons_of_mem _ h2)),
      getD_copySlice_out _ _ _ _ _ _ (h i (List.mem_cons_self i l))]

theorem foldl_copySlice_char (N i0 : Nat) (dstf srcf : Nat → Nat)
    (data init : List Nat) (c : Nat)
    (hi0 : i0 < N) (hc : c < 4)
    (hlen : dstf i0 + 4 ≤ init.length)
    (hdisj : ∀ i, i0 < i → i < N → dstf i + 4 ≤ dstf i0 ∨ dstf i0 + 4 ≤ dstf i) :
    ((List.range N).foldl (fun a i => copySlice a (dstf i) data (srcf i) 4) init).getD
        (dstf i0 + c) 0
      = data.getD (srcf i0 + c) 0 := by
  have hN : N = (i0 + 1) + (N - i0 - 1) := by omega
  rw [hN, List.range_add, List.foldl_append, List.range_succ, List.foldl_append,
    List.foldl_map]
  set A := (List.range i0).foldl (fun a i => copySlice a (dstf i) data (srcf i) 4) init
    with hA
  have hAlen : A.length = init.length := by
    rw [hA]
    exact foldl_length_eq _ (fun acc a => copySlice_length _ _ _ _ _) _ _
  rw [foldl_copySlice_untouched]
  · rw [List.foldl_cons, List.foldl_nil]
    rw [getD_copySlice_in _ _ _ _ _ _ (by omega) (by omega) (by omega)]
    congr 1
    omega
  · intro i hi
    have hmem : i0 + 1 + i < N ∧ 0 ≤ i := by
      have := List.mem_range.mp hi
      omega
    rcases hdisj (i0 + 1 + i) (by omega) hmem.1 with hcase | hcase
    · omega
    · omega

theorem mul_add_lt_inj {B a b a2 b2 : Nat} (hb : b < B) (hb2 : b2 < B)
    (h : a * B + b = a2 * B + b2) : a = a2 ∧ b = b2 := by
  have h1 : (a * B + b) / B = a := by
    rw [Nat.mul_comm a B, Nat.mul_add_div (by omega), Nat.div_eq_of_lt hb, Nat.add_zero]
  have h2 : (a2 * B + b2) / B = a2 := by
    rw [Nat.mul_comm a2 B, Nat.mul_add_div (by omega), Nat.div_eq_of_lt hb2, Nat.add_zero]
  have ha : a = a2 := by rw [← h1, ← h2, h]
  constructor
  · exact ha
  · subst ha; omega

theorem px_window_disj {p q : Nat} (h : p ≠ q) :
    p * 4 + 4 ≤ q * 4 ∨ q * 4 + 4 ≤ p * 4 := by
  rcases Nat.lt_or_ge p q with h1 | h1
  · left
    calc p * 4 + 4 = (p + 1) * 4 := by ring
      _ ≤ q * 4 := Nat.mul_le_mul_right 4 h1
  · right
    have h2 : q + 1 ≤ p := by omega
    calc q * 4 + 4 = (q + 1) * 4 := by ring
      _ ≤ p * 4 := Nat.mul_le_mul_right 4 h2

theorem pix_lt {y x h w : Nat} (hy : y < h) (hx : x < w) : y * w + x < h * w := by
  have h1 : y * w + x < (y + 1) * w := by rw [Nat.succ_mul]; omega
  exact Nat.lt_of_lt_of_le h1 (Nat.mul_le_mul_right w hy)

theorem divmod_pix {y x w : Nat} (hx : x < w) :
    (y * w + x) / w = y ∧ (y * w + x) % w = x := by
  constructor
  · rw [Nat.mul_comm y w, Nat.mul_add_div (by omega), Nat.div_eq_of_lt hx, Nat.add_zero]
  · rw [Nat.mul_comm y w, Nat.mul_add_mod, Nat.mod_eq_of_lt hx]

theorem rotate_90_cw_getD (data : List Nat) (w h y x c : Nat)
    (hy : y < h) (hx : x < w) (hc : c < 4) :
    (rotate_90_cw data w h).1.getD ((x * h + (h - 1 - y)) * 4 + c) 0
      = data.getD ((y * w + x) * 4 + c) 0 := by
  have hw : 0 < w := by omega
  have hh : 0 < h := by omega
  have hdm := divmod_pix (y := y) hx
  have hi0 : y * w + x < h * w := pix_lt hy hx
  simp only [rotate_90_cw]
  rw [foldl_nested_range h w
    (fun y2 x2 a => copySlice a ((x2 * h + (h - 1 - y2)) * 4) data ((y2 * w + x2) * 4) 4)]
  have hchar := foldl_copySlice_char (h * w) (y * w + x)
    (fun i => (i % w * h + (h - 1 - i / w)) * 4)
    (fun i => (i / w * w + i % w) * 4)
    data (List.replicate (h * w * 4) 0) c hi0 hc ?_ ?_
  · simp only [hdm.1, hdm.2] at hchar
    exact hchar
  · simp only [hdm.1, hdm.2, List.length_replicate]
    have hpx : x * h + (h - 1 - y) + 1 ≤ w * h := by
      have h3 : (x + 1) * h ≤ w * h := Nat.mul_le_mul_right h hx
      have h4 : x * h + h = (x + 1) * h := by ring
      omega
    calc (x * h + (h - 1 - y)) * 4 + 4 = (x * h + (h - 1 - y) + 1) * 4 := by ring
      _ ≤ w * h * 4 := Nat.mul_le_mul_right 4 hpx
      _ = h * w * 4 := by ring
  · intro i hgt hlt
    simp only [hdm.1, hdm.2]
    apply px_window_disj
    intro heq
    have hdiv1 : i / w < h := (Nat.div_lt_iff_lt_mul hw).mpr hlt
    have hm1 : i % w < w := Nat.mod_lt _ hw
    have e1 : i / w * w + i % w = i := by
      rw [Nat.mul_comm]; exact Nat.div_add_mod i w
    generalize hdw : i / w = dw at heq hdiv1 e1
    generalize hmw : i % w = mw at heq hm1 e1
    have hb1 : h - 1 - dw < h := by omega
    have hb2 : h - 1 - y < h := by omega
    have hinj := mul_add_lt_inj hb1 hb2 heq
    have hdeq : dw = y := by omega
    rw [hdeq, hinj.1] at e1
    omega

theorem rotate_270_cw_getD (data : List Nat) (w h y x c : Nat)
    (hy : y < h) (hx : x < w) (hc : c < 4) :
    (rotate_270_cw data w h).1.getD (((w - 1 - x) * h + y) * 4 + c) 0
      = data.getD ((y * w + x) * 4 + c) 0 := by
  have hw : 0 < w := by omega
  have hh : 0 < h := by omega
  have hdm := divmod_pix (y := y) hx
  have hi0 : y * w + x < h * w := pix_lt hy hx
  simp only [rotate_270_cw]
  rw [foldl_nested_range h w
    (fun y2 x2 a => copySlice a (((w - 1 - x2) * h + y2) * 4) data ((y2 * w + x2) * 4) 4)]
  have hchar := foldl_copySlice_char (h * w) (y * w + x)
    (fun i => ((w - 1 - i % w) * h + i / w) * 4)
    (fun i => (i / w * w + i % w) * 4)
    data (List.replicate (h * w * 4) 0) c hi0 hc ?_ ?_
  · simp only [hdm.1, hdm.2] at hchar
    exact hchar
  · simp only [hdm.1, hdm.2, List.length_replicate]
    have hpx : (w - 1 - x) * h + y + 1 ≤ w * h := by
      have h3 : (w - 1 - x + 1) * h ≤ w * h := by
        apply Nat.mul_le_mul_right
        omega
      have h4 : (w - 1 - x) * h + h = (w - 1 - x + 1) * h := by ring
      omega
    calc ((w - 1 - x) * h + y) * 4 + 4 = ((w - 1 - x) * h + y + 1) * 4 := by ring
      _ ≤ w * h * 4 := Nat.mul_le_mul_right 4 hpx
      _ = h * w * 4 := by ring
  · intro i hgt hlt
    simp only [hdm.1, hdm.2]
    apply px_window_disj
    intro heq
    have hdiv1 : i / w < h := (Nat.div_lt_iff_lt_mul hw).mpr hlt
    have hm1 : i % w < w := Nat.mod_lt _ hw
    have e1 : i / w * w + i % w = i := by
      rw [Nat.mul_comm]; exact Nat.div_add_mod i w
    generalize hdw : i / w = dw at heq hdiv1 e1
    generalize hmw : i % w = mw at heq hm1 e1
    have hinj := mul_add_lt_inj hdiv1 hy heq
    have hmeq : mw = x := by omega
    rw [hinj.2, hmeq] at e1
    omega

theorem rotate_180_getD (data : List Nat) (w h i c : Nat)
    (hi : i < w * h) (hc : c < 4) (hlen : data.length = w * h * 4) :
    (rotate_180 data w h).getD ((w * h - 1 - i) * 4 + c) 0
      = data.getD (i * 4 + c) 0 := by
  simp only [rotate_180]
  have hchar := foldl_copySlice_char (w * h) i
    (fun i2 => (w * h - 1 - i2) * 4)
    (fun i2 => i2 * 4)
    data (List.replicate data.length 0) c hi hc ?_ ?_
  · exact hchar
  · simp only [List.length_replicate, hlen]
    have hpx : w * h - 1 - i + 1 ≤ w * h := by omega
    calc (w * h - 1 - i) * 4 + 4 = (w * h - 1 - i + 1) * 4 := by ring
      _ ≤ w * h * 4 := Nat.mul_le_mul_right 4 hpx
  · intro i2 hgt hlt
    apply px_window_disj
    omega

theorem flip_horizontal_getD (data : List Nat) (w h y x c : Nat)
    (hy : y < h) (hx : x < w) (hc : c < 4) (hlen : data.length = w * h * 4) :
    (flip_horizontal data w h).getD ((y * w + (w - 1 - x)) * 4 + c) 0
      = data.getD ((y * w + x) * 4 + c) 0 := by
  have hw : 0 < w := by omega
  have hdm := divmod_pix (y := y) hx
  have hi0 : y * w + x < h * w := pix_lt hy hx
  simp only [flip_horizontal]
  rw [foldl_nested_range h w
    (fun y2 x2 a => copySlice a ((y2 * w + (w - 1 - x2)) * 4) data ((y2 * w + x2) * 4) 4)]
  have hchar := foldl_copySlice_char (h * w) (y * w + x)
    (fun i => (i / w * w + (w - 1 - i % w)) * 4)
    (fun i => (i / w * w + i % w) * 4)
    data (List.replicate data.length 0) c hi0 hc ?_ ?_
  · simp only [hdm.1, hdm.2] at hchar
    exact hchar
  · simp only [hdm.1, hdm.2, List.length_replicate, hlen]
    have hpx : y * w + (w - 1 - x) + 1 ≤ h * w := by
      have := pix_lt hy (show w - 1 - x < w by omega)
      omega
    calc (y * w + (w - 1 - x)) * 4 + 4 = (y * w + (w - 1 - x) + 1) * 4 := by ring
      _ ≤ h * w * 4 := Nat.mul_le_mul_right 4 hpx
      _ = w * h * 4 := by ring
  · intro i hgt hlt
    simp only [hdm.1, hdm.2]
    apply px_window_disj
    intro heq
    have hm3 : i % w < w := Nat.mod_lt _ hw
    have e1 : i / w * w + i % w = i := by
      rw [Nat.mul_comm]; exact Nat.div_add_mod i w
    generalize hdw : i / w = dw at heq e1
    generalize hmw : i % w = mw at heq hm3 e1
    have hm1 : w - 1 - mw < w := by omega
    have hm2 : w - 1 - x < w := by omega
    have hinj := mul_add_lt_inj hm1 hm2 heq
    have hmeq : mw = x := by omega
    rw [hinj.1, hmeq] at e1
    omega

theorem rotate_90_cw_length (data : List Nat) (w h : Nat) :
    (rotate_90_cw data w h).1.length = h * w * 4 := by
  simp only [rotate_90_cw]
  refine Eq.trans (foldl_length_eq _ (fun acc y =>
    foldl_length_eq _ (fun acc2 x => copySlice_length _ _ _ _ _) _ _) _ _) (by simp)

theorem rotate_90_cw_dims (data : List Nat) (w h : Nat) :
    (rotate_90_cw data w h).2 = (h, w) := rfl

theorem rotate_270_cw_length (data : List Nat) (w h : Nat) :
    (rotate_270_cw data w h).1.length = h * w * 4 := by
  simp only [rotate_270_cw]
  refine Eq.trans (foldl_length_eq _ (fun acc y =>
    foldl_length_eq _ (fun acc2 x => copySlice_length _ _ _ _ _) _ _) _ _) (by simp)

theorem rotate_270_cw_dims (data : List Nat) (w h : Nat) :
    (rotate_270_cw data w h).2 = (h, w) := rfl

theorem rotate_180_length (data : List Nat) (w h : Nat) :
    (rotate_180 data w h).length = data.length := by
  simp only [rotate_180]
  refine Eq.trans (foldl_length_eq _ (fun acc i => copySlice_length _ _ _ _ _) _ _)
    (by simp)

theorem flip_horizontal_length (data : List Nat) (w h : Nat) :
    (flip_horizontal data w h).length = data.length := by
  simp only [flip_horizontal]
  refine Eq.trans (foldl_length_eq _ (fun acc y =>
    foldl_length_eq _ (fun acc2 x => copySlice_length _ _ _ _ _) _ _) _ _) (by simp)

theorem flip_vertical_length (data : List Nat) (w h : Nat) :
    (flip_vertical data w h).length = data.length := by
  simp only [flip_vertical]
  refine Eq.trans (foldl_length_eq _ (fun acc y => copySlice_length _ _ _ _ _) _ _)
    (by simp)

theorem list_eq_of_getD (l1 l2 : List Nat) (hlen : l1.length = l2.length)
    (h : ∀ j, j < l1.length → l1.getD j 0 = l2.getD j 0) : l1 = l2 := by
  apply List.ext_getElem hlen
  intro i h1 h2
  have h3 := h i h1
  rw [List.getD_eq_getElem?_getD, List.getD_eq_getElem?_getD,
    List.getElem?_eq_getElem h1, List.getElem?_eq_getElem h2] at h3
  simpa using h3

/-- C6: on a well-formed image, `rotate_180` is an involution,
`flip_horizontal` is an involution, and `rotate_90_cw` undoes
`rotate_270_cw`, restoring the original buffer and dimensions. -/
theorem c6_transform_round_trips (data : List Nat) (w h : Nat)
    (hlen : data.length = w * h * 4) :
    rotate_180 (rotate_180 data w h) w h = data
    ∧ flip_horizontal (flip_horizontal data w h) w h = data
    ∧ rotate_90_cw (rotate_270_cw data w h).1 (rotate_270_cw data w h).2.1
        (rotate_270_cw data w h).2.2 = (data, w, h) := by
  have hlen180 : (rotate_180 data w h).length = w * h * 4 := by
    rw [rotate_180_length, hlen]
  have hlenfh : (flip_horizontal data w h).length = w * h * 4 := by
    rw [flip_horizontal_length, hlen]
  refine ⟨?_, ?_, ?_⟩
  · apply list_eq_of_getD
    · rw [rotate_180_length, hlen180, hlen]
    · intro j hj
      rw [rotate_180_length, hlen180] at hj
      have hq : j / 4 < w * h := by omega
      have hc : j % 4 < 4 := by omega
      have hj4 : j = j / 4 * 4 + j % 4 := by omega
      set q := j / 4 with hqd
      set c := j % 4 with hcd
      have h1 := rotate_180_getD (rotate_180 data w h) w h (w * h - 1 - q) c
        (by omega) hc hlen180
      have h2 := rotate_180_getD data w h q c hq hc hlen
      rw [show w * h - 1 - (w * h - 1 - q) = q by omega] at h1
      rw [hj4, h1, h2]
  · apply list_eq_of_getD
    · rw [flip_horizontal_length, hlenfh, hlen]
    · intro j hj
      rw [flip_horizontal_length, hlenfh] at hj
      have hwpos : 0 < w := by
        rcases Nat.eq_zero_or_pos w with h0 | h0
        · subst h0; simp at hj
        · exact h0
      have hq : j / 4 < w * h := by omega
      have hc : j % 4 < 4 := by omega
      have hj4 : j = j / 4 * 4 + j % 4 := by omega
      set q := j / 4 with hqd
      set c := j % 4 with hcd
      have hq2 : q < h * w := by rw [Nat.mul_comm h w]; exact hq
      have hy : q / w < h := (Nat.div_lt_iff_lt_mul hwpos).mpr hq2
      have hx : q % w < w := Nat.mod_lt _ hwpos
      have he : q / w * w + q % w = q := by
        rw [Nat.mul_comm]; exact Nat.div_add_mod q w
      set y := q / w with hyd
      set x := q % w with hxd
      have h1 := flip_horizontal_getD (flip_horizontal data w h) w h y (w - 1 - x) c
        hy (by omega) hc hlenfh
      have h2 := flip_horizontal_getD data w h y x c hy hx hc hlen
      rw [show w - 1 - (w - 1 - x) = x by omega] at h1
      rw [hj4, ← he, h1, h2]
  · have hdims : (rotate_270_cw data w h).2 = (h, w) := rotate_270_cw_dims data w h
    rw [hdims]
    set b := (rotate_270_cw data w h).1 with hb
    have hblen : b.length = h * w * 4 := rotate_270_cw_length data w h
    have h90len : (rotate_90_cw b h w).1.length = w * h * 4 := rotate_90_cw_length b h w
    have h90dims : (rotate_90_cw b h w).2 = (w, h) := rotate_90_cw_dims b h w
    have hbuf : (rotate_90_cw b h w).1 = data := by
      apply list_eq_of_getD
      · rw [h90len, hlen]
      · intro j hj
        rw [h90len] at hj
        have hwpos : 0 < w := by
          rcases Nat.eq_zero_or_pos w with h0 | h0
          · subst h0; simp at hj
          · exact h0
        have hq : j / 4 < w * h := by omega
        have hc : j % 4 < 4 := by omega
        have hj4 : j = j / 4 * 4 + j % 4 := by omega
        set q := j / 4 with hqd
        set c := j % 4 with hcd
        have hq2 : q < h * w := by rw [Nat.mul_comm h w]; exact hq
        have hr : q / w < h := (Nat.div_lt_iff_lt_mul hwpos).mpr hq2
        have hs : q % w < w := Nat.mod_lt _ hwpos
        have he : q / w * w + q % w = q := by
          rw [Nat.mul_comm]; exact Nat.div_add_mod q w
        set r := q / w with hrd
        set s := q % w with hsd
        have e1 := rotate_90_cw_getD b h w (w - 1 - s) r c (by omega) hr hc
        rw [show w - 1 - (w - 1 - s) = s by omega] at e1
        have e2 := rotate_270_cw_getD data w h r s c hr hs hc
        rw [hj4, ← he, e1, e2]
    calc rotate_90_cw b h w
        = ((rotate_90_cw b h w).1, (rotate_90_cw b h w).2) := rfl
      _ = (data, w, h) := by rw [hbuf, h90dims]

theorem apply_transforms_len (data : List Nat) (w h r : Nat) (fh fv : Bool)
    (hlen : data.length = w * h * 4) :
    (apply_transforms data w h r fh fv).1.length =
      (apply_transforms data w h r fh fv).2.1 *
        (apply_transforms data w h r fh fv).2.2 * 4 := by
  simp only [apply_transforms]
  set s : List Nat × Nat × Nat := (match r with
    | 90 => rotate_90_cw data w h
    | 180 => (rotate_180 data w h, w, h)
    | 270 => rotate_270_cw data w h
    | _ => (data, w, h)) with hs
  have hs_len : s.1.length = s.2.1 * s.2.2 * 4 := by
    rw [hs]
    split
    · simp [rotate_90_cw_length, rotate_90_cw_dims]
    · simpa [rotate_180_length] using hlen
    · simp [rotate_270_cw_length, rotate_270_cw_dims]
    · exact hlen
  cases fh <;> cases fv <;>
    simp [flip_vertical_length, flip_horizontal_length, hs_len]

/-- C9: the transforms preserve the buffer-length invariant: the 90- and
270-degree rotations produce a height*width*4 buffer with swapped dimensions,
the 180-degree rotation and both flips preserve the width*height*4 length,
and `apply_transforms` always reports dimensions whose product times 4 is the
length of the buffer it returns. -/
theorem c9_buffer_length_invariant (data : List Nat) (w h : Nat)
    (hlen : data.length = w * h * 4) :
    (rotate_90_cw data w h).1.length = h * w * 4
    ∧ (rotate_90_cw data w h).2 = (h, w)
    ∧ (rotate_270_cw data w h).1.length = h * w * 4
    ∧ (rotate_270_cw data w h).2 = (h, w)
    ∧ (rotate_180 data w h).length = w * h * 4
    ∧ (flip_horizontal data w h).length = w * h * 4
    ∧ (flip_vertical data w h).length = w * h * 4
    ∧ ∀ (r : Nat) (fh fv : Bool),
        (apply_transforms data w h r fh fv).1.length =
          (apply_transforms data w h r fh fv).2.1 *
            (apply_transforms data w h r fh fv).2.2 * 4 :=
  ⟨rotate_90_cw_length data w h, rotate_90_cw_dims data w h,
   rotate_270_cw_length data w h, rotate_270_cw_dims data w h,
   by rw [rotate_180_length, hlen],
   by rw [flip_horizontal_length, hlen],
   by rw [flip_vertical_length, hlen],
   fun r fh fv => apply_transforms_len data w h r fh fv hlen⟩

/-- Witness for C9 at a concrete 1-by-2 image. -/
theorem c9_witness :
    (rotate_90_cw [1, 2, 3, 4, 5, 6, 7, 8] 1 2).1.length = 2 * 1 * 4
    ∧ (rotate_90_cw [1, 2, 3, 4, 5, 6, 7, 8] 1 2).2 = (2, 1)
    ∧ (rotate_270_cw [1, 2, 3, 4, 5, 6, 7, 8] 1 2).1.length = 2 * 1 * 4
    ∧ (rotate_270_cw [1, 2, 3, 4, 5, 6, 7, 8] 1 2).2 = (2, 1)
    ∧ (rotate_180 [1, 2, 3, 4, 5, 6, 7, 8] 1 2).length = 1 * 2 * 4
    ∧ (flip_horizontal [1, 2, 3, 4, 5, 6, 7, 8] 1 2).length = 1 * 2 * 4
    ∧ (flip_vertical [1, 2, 3, 4, 5, 6, 7, 8] 1 2).length = 1 * 2 * 4
    ∧ ∀ (r : Nat) (fh fv : Bool),
        (apply_transforms [1, 2, 3, 4, 5, 6, 7, 8] 1 2 r fh fv).1.length =
          (apply_transforms [1, 2, 3, 4, 5, 6, 7, 8] 1 2 r fh fv).2.1 *
            (apply_transforms [1, 2, 3, 4, 5, 6, 7, 8] 1 2 r fh fv).2.2 * 4 :=
  c9_buffer_length_invariant [1, 2, 3, 4, 5, 6, 7, 8] 1 2 (by decide)

/-- Witness for C6 at a concrete 2-by-3 image. -/
theorem c6_witness :
    rotate_180 (rotate_180 (List.range 24) 2 3) 2 3 = List.range 24
    ∧ flip_horizontal (flip_horizontal (List.range 24) 2 3) 2 3 = List.range 24
    ∧ rotate_90_cw (rotate_270_cw (List.range 24) 2 3).1
        (rotate_270_cw (List.range 24) 2 3).2.1
        (rotate_270_cw (List.range 24) 2 3).2.2 = (List.range 24, 2, 3) :=
  c6_transform_round_trips (List.range 24) 2 3 (by decide)

theorem rround_natCast (n : Nat) : rround (n : ℚ) = (n : ℤ) := by
  unfold rround
  rw [add_comm, Int.floor_add_nat]
  norm_num

theorem rround_mono {x y : ℚ} (h : x ≤ y) : rround x ≤ rround y :=
  Int.floor_le_floor (by linarith)

theorem rround_zero : rround 0 = 0 := by
  unfold rround
  norm_num

theorem calc_fit_contain_eq (sw sh tw th : Nat) :
    calculate_fit_dimensions sw sh tw th "contain" =
      ((max (rround ((sw : ℚ) * min ((tw : ℚ) / (sw : ℚ)) ((th : ℚ) / (sh : ℚ)))).toNat 1,
        max (rround ((sh : ℚ) * min ((tw : ℚ) / (sw : ℚ)) ((th : ℚ) / (sh : ℚ)))).toNat 1,
        none) : Nat × Nat × Option (Nat × Nat × Nat × Nat)) := rfl

/-- C2 counterexample: with source 1x1 and target 0x5 the contain mode
returns width 1, which exceeds the target width 0, so the claim fails when a
target dimension may be zero. -/
theorem c2_counterexample :
    calculate_fit_dimensions 1 1 0 5 "contain" = (1, 1, none)
    ∧ ¬((calculate_fit_dimensions 1 1 0 5 "contain").1 ≤ 0) := by
  constructor
  · rw [calc_fit_contain_eq]
    norm_num [rround_zero]
  · rw [calc_fit_contain_eq]
    norm_num [rround_zero]

/-- C2 (amended with positive targets): for positive source dimensions and
targets of at least 1, contain mode fits inside the target box and matches it
exactly on at least one axis. -/
theorem c2_contain_fits (sw sh tw th : Nat) (hsw : 0 < sw) (hsh : 0 < sh)
    (htw : 1 ≤ tw) (hth : 1 ≤ th) :
    (calculate_fit_dimensions sw sh tw th "contain").1 ≤ tw
    ∧ (calculate_fit_dimensions sw sh tw th "contain").2.1 ≤ th
    ∧ ((calculate_fit_dimensions sw sh tw th "contain").1 = tw
       ∨ (calculate_fit_dimensions sw sh tw th "contain").2.1 = th) := by
  rw [calc_fit_contain_eq]
  have hswQ : ((sw : ℚ)) ≠ 0 := Nat.cast_ne_zero.mpr (by omega)
  have hshQ : ((sh : ℚ)) ≠ 0 := Nat.cast_ne_zero.mpr (by omega)
  rcases le_total ((tw : ℚ) / (sw : ℚ)) ((th : ℚ) / (sh : ℚ)) with hms | hms
  · rw [min_eq_left hms]
    have hA : (sw : ℚ) * ((tw : ℚ) / (sw : ℚ)) = (tw : ℚ) := by field_simp
    have hAr : (rround ((sw : ℚ) * ((tw : ℚ) / (sw : ℚ)))).toNat = tw := by
      rw [hA, rround_natCast, Int.toNat_natCast]
    have hBle : (sh : ℚ) * ((tw : ℚ) / (sw : ℚ)) ≤ (th : ℚ) := by
      have h1 : (sh : ℚ) * ((tw : ℚ) / (sw : ℚ)) ≤ (sh : ℚ) * ((th : ℚ) / (sh : ℚ)) :=
        mul_le_mul_of_nonneg_left hms (by positivity)
      have h2 : (sh : ℚ) * ((th : ℚ) / (sh : ℚ)) = (th : ℚ) := by field_simp
      linarith
    have hBr : (rround ((sh : ℚ) * ((tw : ℚ) / (sw : ℚ)))).toNat ≤ th := by
      have h3 : rround ((sh : ℚ) * ((tw : ℚ) / (sw : ℚ))) ≤ rround ((th : ℚ)) :=
        rround_mono hBle
      rw [rround_natCast] at h3
      omega
    refine ⟨?_, ?_, Or.inl ?_⟩
    · simp only [hAr]
      omega
    · dsimp only
      omega
    · simp only [hAr]
      omega
  · rw [min_eq_right hms]
    have hA : (sh : ℚ) * ((th : ℚ) / (sh : ℚ)) = (th : ℚ) := by field_simp
    have hAr : (rround ((sh : ℚ) * ((th : ℚ) / (sh : ℚ)))).toNat = th := by
      rw [hA, rround_natCast, Int.toNat_natCast]
    have hBle : (sw : ℚ) * ((th : ℚ) / (sh : ℚ)) ≤ (tw : ℚ) := by
      have h1 : (sw : ℚ) * ((th : ℚ) / (sh : ℚ)) ≤ (sw : ℚ) * ((tw : ℚ) / (sw : ℚ)) :=
        mul_le_mul_of_nonneg_left hms (by positivity)
      have h2 : (sw : ℚ) * ((tw : ℚ) / (sw : ℚ)) = (tw : ℚ) := by field_simp
      linarith
    have hBr : (rround ((sw : ℚ) * ((th : ℚ) / (sh : ℚ)))).toNat ≤ tw := by
      have h3 : rround ((sw : ℚ) * ((th : ℚ) / (sh : ℚ))) ≤ rround ((tw : ℚ)) :=
        rround_mono hBle
      rw [rround_natCast] at h3
      omega
    refine ⟨?_, ?_, Or.inr ?_⟩
    · dsimp only
      omega
    · simp only [hAr]
      omega
    · simp only [hAr]
      omega

/-- Witness for C2 at source 2x1 and target 4x4. -/
theorem c2_witness :
    (calculate_fit_dimensions 2 1 4 4 "contain").1 ≤ 4
    ∧ (calculate_fit_dimensions 2 1 4 4 "contain").2.1 ≤ 4
    ∧ ((calculate_fit_dimensions 2 1 4 4 "contain").1 = 4
       ∨ (calculate_fit_dimensions 2 1 4 4 "contain").2.1 = 4) :=
  c2_contain_fits 2 1 4 4 (by decide) (by decide) (by decide) (by decide)

/-- C3 counterexample: fill mode returns the target dimensions without the
floor at 1, so with target width 0 a scaled dimension of 0 is produced. -/
theorem c3_counterexample :
    calculate_fit_dimensions 5 5 0 7 "fill" = (0, 7, none)
    ∧ ¬(1 ≤ (calculate_fit_dimensions 5 5 0 7 "fill").1) := by
  constructor
  · rfl
  · decide

/-- C3 (amended): the floor at 1 applies to the cover, outside and contain
branches only; fill returns the target dimensions unchanged, so its results
are at least 1 only when the targets are. -/
theorem c3_min_dims :
    (∀ sw sh tw th : Nat, calculate_fit_dimensions sw sh tw th "fill" = (tw, th, none))
    ∧ (∀ (sw sh tw th : Nat) (mode : String), 0 < sw → 0 < sh → mode ≠ "fill" →
        1 ≤ (calculate_fit_dimensions sw sh tw th mode).1
        ∧ 1 ≤ (calculate_fit_dimensions sw sh tw th mode).2.1) := by
  constructor
  · intro sw sh tw th
    rfl
  · intro sw sh tw th mode hsw hsh hne
    rcases hEq : calculate_fit_dimensions sw sh tw th mode with ⟨a, b, copt⟩
    dsimp only
    unfold calculate_fit_dimensions at hEq
    split at hEq
    · exact absurd rfl hne
    · simp only [Prod.mk.injEq] at hEq
      omega
    · simp only [Prod.mk.injEq] at hEq
      omega
    · simp only [Prod.mk.injEq] at hEq
      omega

/-- Witness for C3 in the fill and cover branches. -/
theorem c3_witness :
    calculate_fit_dimensions 1 2 3 4 "fill" = (3, 4, none)
    ∧ (1 ≤ (calculate_fit_dimensions 3 4 9 9 "cover").1
       ∧ 1 ≤ (calculate_fit_dimensions 3 4 9 9 "cover").2.1) :=
  ⟨c3_min_dims.1 1 2 3 4,
   c3_min_dims.2 3 4 9 9 "cover" (by decide) (by decide) (by decide)⟩

/-- C1 counterexample: on a zero-area image the sharpen, auto-trim and
transform stages return an output buffer (the input, resp. an empty rotated
buffer) instead of an InvalidDimension error; none of them can even signal an
error. -/
theorem c1_counterexample :
    sharpen [] 0 0 1 = []
    ∧ auto_trim [] 0 0 25 = ([], 0, 0)
    ∧ apply_transforms [] 0 0 90 true true = ([], 0, 0) :=
  ⟨rfl, rfl, rfl⟩

/-- C1 (amended): only the resize stage rejects zero-area inputs with the
InvalidDimension error ("Invalid dimensions"); auto-trim and sharpen return
the input unchanged on a zero-area image, the transform stage returns an
output buffer, and the crop primitive returns an empty buffer. -/
theorem c1_zero_area_behavior :
    (∀ (data : List Nat) (sw sh dw dh : Nat) (filter : String),
        sw = 0 ∨ sh = 0 ∨ dw = 0 ∨ dh = 0 →
        resize_image data sw sh dw dh filter = .error "Invalid dimensions")
    ∧ (∀ (data : List Nat) (w h : Nat) (amount : ℚ), w = 0 ∨ h = 0 →
        sharpen data w h amount = data)
    ∧ (∀ (data : List Nat) (w h thr : Nat), w = 0 ∨ h = 0 →
        auto_trim data w h thr = (data, w, h))
    ∧ (∀ (r : Nat) (fh fv : Bool), apply_transforms [] 0 0 r fh fv = ([], 0, 0))
    ∧ crop_image [] 0 0 0 0 0 0 = [] := by
  refine ⟨?_, ?_, ?_, ?_, rfl⟩
  · intro data sw sh dw dh filter hz
    simp only [resize_image]
    rw [if_pos (by tauto)]
  · intro data w h amount hz
    simp only [sharpen]
    rw [if_pos (Or.inr (by omega))]
  · intro data w h thr hz
    have hd : detect_content_bounds data w h thr = none := by
      unfold detect_content_bounds
      rw [if_pos (by tauto)]
    simp [auto_trim, hd]
  · intro r fh fv
    have hstep : (match r with
      | 90 => rotate_90_cw [] 0 0
      | 180 => (rotate_180 [] 0 0, 0, 0)
      | 270 => rotate_270_cw [] 0 0
      | _ => (([] : List Nat), 0, 0)) = (([] : List Nat), 0, 0) := by
      split <;> rfl
    simp only [apply_transforms, hstep]
    cases fh <;> cases fv <;> rfl

/-- Witness for C1 at concrete zero-area inputs. -/
theorem c1_witness :
    resize_image [] 0 1 1 1 "Lanczos3" = .error "Invalid dimensions"
    ∧ sharpen [] 0 1 (1 / 2) = []
    ∧ auto_trim [] 1 0 25 = ([], 1, 0)
    ∧ apply_transforms [] 0 0 180 false true = ([], 0, 0)
    ∧ crop_image [] 0 0 0 0 0 0 = [] :=
  ⟨c1_zero_area_behavior.1 [] 0 1 1 1 "Lanczos3" (Or.inl rfl),
   c1_zero_area_behavior.2.1 [] 0 1 (1 / 2) (Or.inl rfl),
   c1_zero_area_behavior.2.2.1 [] 1 0 25 (Or.inr rfl),
   c1_zero_area_behavior.2.2.2.1 180 false true,
   c1_zero_area_behavior.2.2.2.2⟩

theorem flatten_replicate_getD (L : List Nat) (hL : L.length = 4) :
    ∀ (n p c : Nat), p < n → c < 4 →
    ((List.replicate n L).flatten).getD (p * 4 + c) 0 = L.getD c 0 := by
  intro n
  induction n with
  | zero => intro p c hp hc; omega
  | succ n ih =>
    intro p c hp hc
    rw [List.replicate_succ, List.flatten_cons]
    rcases Nat.eq_zero_or_pos p with h0 | h0
    · subst h0
      simp only [Nat.zero_mul, Nat.zero_add]
      rw [List.getD_append _ _ _ _ (by omega)]
    · rw [List.getD_append_right _ _ _ _ (by omega), hL]
      have hidx : p * 4 + c - 4 = (p - 1) * 4 + c := by omega
      rw [hidx]
      exact ih (p - 1) c (by omega) hc

theorem foldl_id_of {α β : Type} (l : List α) (f : β → α → β) :
    (∀ a ∈ l, ∀ s, f s a = s) → ∀ init, l.foldl f init = init := by
  induction l with
  | nil => intro h init; rfl
  | cons a l ih =>
    intro h init
    rw [List.foldl_cons, h a (List.mem_cons_self a l),
      ih (fun a2 h2 => h a2 (List.mem_cons_of_mem _ h2)) init]

/-- C7: a uniform solid-color image of any positive size yields no content
bounds at any threshold, since every pixel matches the corner-averaged
background estimate exactly. -/
theorem c7_uniform_none (w h r g b a thr : Nat) (hw : 0 < w) (hh : 0 < h)
    (hr : r < 256) (hg : g < 256) (hb : b < 256) :
    detect_content_bounds (uniformImage w h r g b a) w h thr = none := by
  set u := uniformImage w h r g b a with hu
  have hbyte : ∀ y x c, y < h → x < w → c < 4 →
      u.getD ((y * w + x) * 4 + c) 0 = [r, g, b, a].getD c 0 := by
    intro y x c hy hx hc
    exact flatten_replicate_getD [r, g, b, a] rfl (w * h) (y * w + x) c
      (by rw [Nat.mul_comm w h]; exact pix_lt hy hx) hc
  have hb0 : ∀ y x, y < h → x < w → u.getD ((y * w + x) * 4) 0 = r := by
    intro y x hy hx
    have := hbyte y x 0 hy hx (by omega)
    simpa using this
  have hb1 : ∀ y x, y < h → x < w → u.getD ((y * w + x) * 4 + 1) 0 = g := by
    intro y x hy hx
    exact hbyte y x 1 hy hx (by omega)
  have hb2 : ∀ y x, y < h → x < w → u.getD ((y * w + x) * 4 + 2) 0 = b := by
    intro y x hy hx
    exact hbyte y x 2 hy hx (by omega)
  have hbg : bg_estimate u w h = (r, g, b) := by
    simp only [bg_estimate, List.foldl_cons, List.foldl_nil]
    rw [hb0 0 0 hh hw, hb1 0 0 hh hw, hb2 0 0 hh hw,
      hb0 0 (w - 1) hh (by omega), hb1 0 (w - 1) hh (by omega), hb2 0 (w - 1) hh (by omega),
      hb0 (h - 1) 0 (by omega) hw, hb1 (h - 1) 0 (by omega) hw, hb2 (h - 1) 0 (by omega) hw,
      hb0 (h - 1) (w - 1) (by omega) (by omega), hb1 (h - 1) (w - 1) (by omega) (by omega),
      hb2 (h - 1) (w - 1) (by omega) (by omega)]
    simp only [Prod.mk.injEq]
    refine ⟨by omega, by omega, by omega⟩
  have hisbg : ∀ y x, y < h → x < w →
      is_background_px u thr r g b ((y * w + x) * 4) = true := by
    intro y x hy hx
    unfold is_background_px
    rw [hb0 y x hy hx, hb1 y x hy hx, hb2 y x hy hx]
    simp
  have hscan : detect_scan u w h thr r g b = (w, 0, h, 0) := by
    unfold detect_scan
    apply foldl_id_of
    intro y hy st
    apply foldl_id_of
    intro x hx st2
    rw [if_pos (hisbg y x (List.mem_range.mp hy) (List.mem_range.mp hx))]
  simp only [detect_content_bounds]
  rw [if_neg (by omega), hbg]
  simp only
  rw [hscan]
  simp only
  rw [if_pos (by omega)]

/-- Witness for C7 at a concrete 2-by-2 uniform image and threshold 0. -/
theorem c7_witness :
    detect_content_bounds (uniformImage 2 2 9 8 7 255) 2 2 0 = none :=
  c7_uniform_none 2 2 9 8 7 255 0 (by decide) (by decide) (by decide) (by decide) (by decide)

/-- C10: any blur radius above 50 is silently clamped: the output equals the
radius-50 output exactly, and blur is a total function, so no error can
arise. -/
theorem c10_blur_clamp (data : List Nat) (w h r : Nat) (hr : 50 < r) :
    blur data w h r = blur data w h 50 := by
  unfold blur
  by_cases hwh : w < 3 ∨ h < 3
  · rw [if_pos (by tauto), if_pos (by tauto)]
  · have h1 : ¬(r = 0 ∨ w < 3 ∨ h < 3) := by omega
    have h2 : ¬((50 : Nat) = 0 ∨ w < 3 ∨ h < 3) := by omega
    rw [if_neg h1, if_neg h2]
    congr 1
    omega

/-- Witness for C10 at a concrete 3-by-3 image and radius 60. -/
theorem c10_witness :
    blur (List.range 36) 3 3 60 = blur (List.range 36) 3 3 50 :=
  c10_blur_clamp (List.range 36) 3 3 60 (by decide)

/-- C5 counterexample: a buffer that starts with "PNG" but is shorter than 54
bytes fails with TooSmall, not InvalidFormat, because the size check runs
before the magic check. -/
theorem c5_counterexample :
    decode_bmp [80, 78, 71] = .error "BMP file too small"
    ∧ decode_bmp [80, 78, 71] ≠ .error "Not a valid BMP file" := by
  refine ⟨rfl, ?_⟩
  intro hc
  rw [show decode_bmp [80, 78, 71] = Except.error "BMP file too small" from rfl] at hc
  simp at hc

/-- C5 (amended): every input shorter than 54 bytes fails with TooSmall
("BMP file too small"), and every input of at least 54 bytes that starts with
"PNG" fails with InvalidFormat ("Not a valid BMP file"). -/
theorem c5_small_and_magic :
    (∀ data : List Nat, data.length < 54 → decode_bmp data = .error "BMP file too small")
    ∧ (∀ data : List Nat, 54 ≤ data.length → data.take 3 = [80, 78, 71] →
        decode_bmp data = .error "Not a valid BMP file") := by
  constructor
  · intro data hlt
    unfold decode_bmp
    rw [if_pos hlt]
  · intro data hlen hpng
    have ht2 : data.take 2 = [80, 78] := by
      have h1 := congrArg (List.take 2) hpng
      rw [List.take_take] at h1
      simpa using h1
    have hnb : ¬(is_bmp data = true) := by
      simp [is_bmp, ht2]
    unfold decode_bmp
    rw [if_neg (by omega), if_pos hnb]

/-- Witness for C5: a 3-byte input and a 54-byte PNG-prefixed input. -/
theorem c5_witness :
    decode_bmp [1, 2, 3] = .error "BMP file too small"
    ∧ decode_bmp (80 :: 78 :: 71 :: List.replicate 51 0) =
        .error "Not a valid BMP file" :=
  ⟨c5_small_and_magic.1 [1, 2, 3] (by decide),
   c5_small_and_magic.2 (80 :: 78 :: 71 :: List.replicate 51 0) (by simp) rfl⟩

theorem getD_set_ne (l : List Nat) (i j v : Nat) (hne : i ≠ j) :
    (l.set i v).getD j 0 = l.getD j 0 := by
  rw [List.getD_eq_getElem?_getD, List.getElem?_set_ne hne,
    ← List.getD_eq_getElem?_getD]

theorem foldl_getD_of_preserved {α : Type} (l : List α) (f : List Nat → α → List Nat)
    (j : Nat) (h : ∀ acc a, a ∈ l → (f acc a).getD j 0 = acc.getD j 0) :
    ∀ init, (l.foldl f init).getD j 0 = init.getD j 0 := by
  induction l with
  | nil => intro init; rfl
  | cons a l ih =>
    intro init
    rw [List.foldl_cons,
      ih (fun acc a2 h2 => h acc a2 (List.mem_cons_of_mem _ h2)) (f init a),
      h init a (List.mem_cons_self a l)]

/-- C8: for a well-formed image at least 3 pixels wide and high and a
positive amount, sharpen preserves the buffer length and leaves every alpha
byte and every byte of the 1-pixel outer border unchanged; only interior RGB
bytes can differ. -/
theorem c8_sharpen_frame (data : List Nat) (w h : Nat) (amount : ℚ)
    (hw : 3 ≤ w) (hh : 3 ≤ h) (ha : 0 < amount) (hlen : data.length = w * h * 4) :
    (sharpen data w h amount).length = data.length
    ∧ ∀ j, j < data.length →
        (j % 4 = 3 ∨ j / 4 % w = 0 ∨ j / 4 % w = w - 1
          ∨ j / 4 / w = 0 ∨ j / 4 / w = h - 1) →
        (sharpen data w h amount).getD j 0 = data.getD j 0 := by
  have hguard : ¬(amount ≤ 0 ∨ w < 3 ∨ h < 3) := by
    push_neg
    exact ⟨ha, by omega, by omega⟩
  simp only [sharpen]
  rw [if_neg hguard]
  constructor
  · refine Eq.trans (foldl_length_eq _ (fun acc y =>
      foldl_length_eq _ (fun acc2 x =>
        foldl_length_eq _ (fun acc3 c => List.length_set _ _ _) _ _) _ _) _ _) rfl
  · intro j hj hcond
    apply foldl_getD_of_preserved
    intro acc y hy
    apply foldl_getD_of_preserved
    intro acc2 x hx
    apply foldl_getD_of_preserved
    intro acc3 c hc
    apply getD_set_ne
    intro heq
    have hcr : c < 3 := List.mem_range.mp hc
    have hyr := List.mem_range'_1.mp hy
    have hxr := List.mem_range'_1.mp hx
    have hq4 : ((y * w + x) * 4 + c) % 4 = c := by
      rw [Nat.mul_comm (y * w + x) 4, Nat.mul_add_mod, Nat.mod_eq_of_lt (by omega)]
    have hq4d : ((y * w + x) * 4 + c) / 4 = y * w + x := by
      rw [Nat.mul_comm (y * w + x) 4, Nat.mul_add_div (by omega),
        Nat.div_eq_of_lt (by omega), Nat.add_zero]
    have hdm2 := divmod_pix (y := y) (x := x) (show x < w by omega)
    rw [← heq, hq4, hq4d, hdm2.1, hdm2.2] at hcond
    omega

/-- Witness for C8 at a concrete 3-by-3 image, amount 1, and the alpha byte
of the first pixel. -/
theorem c8_witness :
    (sharpen (List.range 36) 3 3 1).length = (List.range 36).length
    ∧ (sharpen (List.range 36) 3 3 1).getD 3 0 = (List.range 36).getD 3 0 :=
  ⟨(c8_sharpen_frame (List.range 36) 3 3 1 (by decide) (by decide) (by decide)
      (by decide)).1,
   (c8_sharpen_frame (List.range 36) 3 3 1 (by decide) (by decide) (by decide)
      (by decide)).2 3 (by decide) (Or.inl (by decide))⟩

theorem except_error_bind {ε α β : Type} (e : ε) (f : α → Except ε β) :
    ((Except.error e : Except ε α) >>= f) = .error e := rfl

theorem except_ok_bind {ε α β : Type} (a : α) (f : α → Except ε β) :
    ((Except.ok a : Except ε α) >>= f) = f a := rfl

theorem foldlM_except_mono {α β : Type} (f g : β → α → Except String β)
    (hfg : ∀ acc a r, f acc a = .ok r → g acc a = .ok r) :
    ∀ (l : List α) (acc r : β), l.foldlM f acc = .ok r → l.foldlM g acc = .ok r := by
  intro l
  induction l with
  | nil =>
    intro acc r h
    simpa using h
  | cons a l ih =>
    intro acc r h
    rw [List.foldlM_cons] at h
    rw [List.foldlM_cons]
    cases hfa : f acc a with
    | error e =>
      rw [hfa, except_error_bind] at h
      simp at h
    | ok b =>
      rw [hfa, except_ok_bind] at h
      rw [hfg acc a b hfa, except_ok_bind]
      exact ih b r h

theorem bmpDecodePixel_truncated (data : List Nat) (bits row_start width y : Nat)
    (rgba : List Nat) (x : Nat)
    (h : row_start + x * (bits / 8) + bits / 8 > data.length) :
    bmpDecodePixel data bits row_start width y rgba x = .error "BMP data truncated" := by
  simp only [bmpDecodePixel]
  rw [if_pos h]

theorem bmpDecodePixel_append (data extra : List Nat) (bits row_start width y : Nat)
    (rgba : List Nat) (x : Nat) (r : List Nat)
    (h : bmpDecodePixel data bits row_start width y rgba x = .ok r) :
    bmpDecodePixel (data ++ extra) bits row_start width y rgba x = .ok r := by
  simp only [bmpDecodePixel] at h ⊢
  by_cases hck : row_start + x * (bits / 8) + bits / 8 > data.length
  · rw [if_pos hck] at h
    simp at h
  · rw [if_neg hck] at h
    have hck2 : ¬(row_start + x * (bits / 8) + bits / 8 > (data ++ extra).length) := by
      rw [List.length_append]
      omega
    rw [if_neg hck2]
    split at h
    · rw [List.getD_append _ _ _ _ (by omega), List.getD_append _ _ _ _ (by omega),
        List.getD_append _ _ _ _ (by omega)]
      exact h
    · rw [List.getD_append _ _ _ _ (by omega), List.getD_append _ _ _ _ (by omega),
        List.getD_append _ _ _ _ (by omega), List.getD_append _ _ _ _ (by omega)]
      exact h
    · simp at h

theorem decode_bmp_append (data extra : List Nat) (r : List Nat × Nat × Nat)
    (h : decode_bmp data = .ok r) : decode_bmp (data ++ extra) = .ok r := by
  by_cases h54 : data.length < 54
  · simp only [decode_bmp] at h
    rw [if_pos h54] at h
    simp at h
  · have h54b : ¬((data ++ extra).length < 54) := by
      rw [List.length_append]
      omega
    have hgetD : ∀ i, i < data.length → (data ++ extra).getD i 0 = data.getD i 0 :=
      fun i hi => List.getD_append _ _ _ _ hi
    have hU32 : ∀ off, off + 4 ≤ data.length →
        leU32 (data ++ extra) off = leU32 data off := by
      intro off hoff
      unfold leU32
      rw [hgetD _ (by omega), hgetD _ (by omega), hgetD _ (by omega), hgetD _ (by omega)]
    have hU16 : ∀ off, off + 2 ≤ data.length →
        leU16 (data ++ extra) off = leU16 data off := by
      intro off hoff
      unfold leU16
      rw [hgetD _ (by omega), hgetD _ (by omega)]
    have hI32 : ∀ off, off + 4 ≤ data.length →
        leI32 (data ++ extra) off = leI32 data off := by
      intro off hoff
      unfold leI32
      rw [hU32 _ hoff]
    by_cases hbm : is_bmp data = true
    · have hbm2 : is_bmp (data ++ extra) = true := by
        unfold is_bmp at hbm ⊢
        rw [List.take_append_of_le_length (by omega)]
        simp only [List.length_append]
        simp only [Bool.and_eq_true, decide_eq_true_eq] at hbm ⊢
        exact ⟨by omega, hbm.2⟩
      simp only [decode_bmp] at h ⊢
      rw [if_neg h54, if_neg (not_not_intro hbm)] at h
      rw [if_neg h54b, if_neg (not_not_intro hbm2)]
      rw [hU32 30 (by omega), hI32 18 (by omega), hI32 22 (by omega),
        hU16 28 (by omega), hU32 10 (by omega)]
      by_cases hcomp : leU32 data 30 ≠ 0 ∧ leU32 data 30 ≠ 3
      · rw [if_pos hcomp] at h
        simp at h
      · rw [if_neg hcomp] at h
        rw [if_neg hcomp]
        cases hrows : (List.range (leI32 data 22).natAbs).foldlM
            (fun rgba y =>
              (List.range (leI32 data 18).natAbs).foldlM
                (fun rg x =>
                  bmpDecodePixel data (leU16 data 28)
                    (leU32 data 10 +
                      (if leI32 data 22 < 0 then y
                       else (leI32 data 22).natAbs - 1 - y) *
                        (((leI32 data 18).natAbs * (leU16 data 28 / 8) + 3) / 4 * 4))
                    (leI32 data 18).natAbs y rg x)
                rgba)
            (List.replicate ((leI32 data 18).natAbs * (leI32 data 22).natAbs * 4) 0)
            with
        | error e =>
          rw [hrows] at h
          simp at h
        | ok rgba =>
          rw [hrows] at h
          have hrows2 := foldlM_except_mono _ _
            (fun acc y r2 hin => foldlM_except_mono _ _
              (fun acc2 x r3 hpix =>
                bmpDecodePixel_append data extra _ _ _ _ acc2 x r3 hpix)
              (List.range (leI32 data 18).natAbs) acc r2 hin)
            (List.range (leI32 data 22).natAbs)
            (List.replicate ((leI32 data 18).natAbs * (leI32 data 22).natAbs * 4) 0)
            rgba hrows
          rw [hrows2]
          exact h
    · simp only [decode_bmp] at h
      rw [if_neg h54, if_pos hbm] at h
      simp at h

/-- C4: decode_bmp reads the input only through bounds-checked accesses: a
successful decode is unchanged by appending arbitrary bytes to the input (so
no byte beyond the checked prefix is ever read or can influence the result),
and a pixel whose checked source range extends past the input makes decoding
return the Truncated error instead of reading. -/
theorem c4_bounds_checked :
    (∀ (data extra : List Nat) (r : List Nat × Nat × Nat),
        decode_bmp data = .ok r → decode_bmp (data ++ extra) = .ok r)
    ∧ (∀ (data : List Nat) (bits row_start width y : Nat) (rgba : List Nat) (x : Nat),
        row_start + x * (bits / 8) + bits / 8 > data.length →
        bmpDecodePixel data bits row_start width y rgba x = .error "BMP data truncated") :=
  ⟨decode_bmp_append, bmpDecodePixel_truncated⟩

/-- Witness for C4: a concrete 1-by-1 BMP with two junk bytes appended, and a
truncated pixel read on an empty input. -/
theorem c4_witness :
    decode_bmp (bmp1x1 ++ [9, 9]) = .ok ([255, 0, 0, 255], 1, 1)
    ∧ bmpDecodePixel [] 24 0 1 0 (List.replicate 4 0) 0 = .error "BMP data truncated" :=
  ⟨c4_bounds_checked.1 bmp1x1 [9, 9] ([255, 0, 0, 255], 1, 1) rfl,
   c4_bounds_checked.2 [] 24 0 1 0 (List.replicate 4 0) 0 (by decide)⟩

end NanoPng
